import Mathlib

/-!
Verification of the caching / socket-state coordination layer of the
BootcampChat backend (`backend/utils/redisShardingService.js`,
`backend/repositories/messageRepository.js`, `backend/services/cacheService.js`,
`backend/services/socketStateService.js`).

JavaScript numbers, strings and objects are embedded as follows:

* timestamps and counts are `Nat` (millisecond epoch values / non-negative
  integers); JavaScript 32-bit bitwise arithmetic is carried out on `Nat`
  values kept below `2 ^ 32`, with `>>> 0` rendered as `% 2 ^ 32`;
* a JavaScript string is, where the code iterates `charCodeAt`, a
  `List Nat` of its UTF-16 code units, and elsewhere a Lean `String`;
* the Redis / fallback cache backend is a key-value store: an association
  list from key strings to entries `(value, ttl)`; `setEx` stores a value
  under a key with a fresh TTL, `get` returns the most recently stored
  value, `del` removes the key;
* `async` methods whose only failure source matters to a claim take a
  `Bool` flag for the outcome of that fallible step (e.g. the MongoDB
  write in `saveMessage`, the primary cache write in `writeThrough`) and
  return an `Except` together with the resulting store.
-/

namespace Chat

/-! ### Shard router: `redisShardingService.js` lines 42-70 -/

/-- One entry of the CRC32 table, from `get crc32Table` (lines 58-70 of
`redisShardingService.js`): eight rounds of
`c = (c & 1) ? 0xEDB88320 ^ (c >>> 1) : (c >>> 1)` starting from the index. -/
def crc32TableEntry (n : Nat) : Nat :=
  (List.range 8).foldl
    (fun c _ => if c % 2 = 1 then Nat.xor 0xEDB88320 (c / 2) else c / 2) n

/-- One iteration of the CRC loop (line 52):
`crc = (crc >>> 8) ^ table[(crc ^ str.charCodeAt(i)) & 0xFF]`. -/
def crc32Step (crc code : Nat) : Nat :=
  Nat.xor (crc / 256) (crc32TableEntry ((Nat.xor crc code) % 256))

/-- `RedisShardingService.crc32` (lines 49-55), over the UTF-16 code units of
the argument string: start from `0 ^ (-1)` (bit pattern `0xFFFFFFFF`), fold
`crc32Step`, and finish with `(crc ^ (-1)) >>> 0`. -/
def crc32 (codes : List Nat) : Nat :=
  Nat.xor (codes.foldl crc32Step 0xFFFFFFFF) 0xFFFFFFFF

/-- `RedisShardingService.getShardKey` (lines 42-46):
`(crc32(roomId) >>> 0) % 3`. The room identifier is given as its list of
UTF-16 code units, which is what `charCodeAt` iterates over. -/
def getShardKey (roomId : List Nat) : Nat :=
  (crc32 roomId % 2 ^ 32) % 3

/-- UTF-8 encoding of one Unicode code point, as a list of byte values. -/
def utf8EncodeChar (c : Nat) : List Nat :=
  if c < 0x80 then [c]
  else if c < 0x800 then [0xC0 + c / 64, 0x80 + c % 64]
  else if c < 0x10000 then [0xE0 + c / 4096, 0x80 + (c / 64) % 64, 0x80 + c % 64]
  else [0xF0 + c / 262144, 0x80 + (c / 4096) % 64, 0x80 + (c / 64) % 64, 0x80 + c % 64]

/-- Spec-side shard function, for comparison with `getShardKey`. Modelled
from the spec (§4.1): "a standard 32-bit cyclic-redundancy checksum over the
UTF-8 bytes of the room identifier, masked to an unsigned 32-bit value, then
reduced modulo the number of write shards (3)". The argument is the room
identifier as a list of Unicode code points. -/
def shardForSpec (codepoints : List Nat) : Nat :=
  (crc32 (codepoints.flatMap utf8EncodeChar) % 2 ^ 32) % 3

/-! ### Data model -/

/-- A chat message, reduced to the fields the caching layer inspects:
its identifier, its room, and its timestamp (milliseconds). -/
structure Message where
  id : String
  room : String
  timestamp : Nat
deriving DecidableEq, Repr

/-- A cached paginated batch, `{messages, hasMore, oldestTimestamp, cachedAt}`
as built by `MessageRepository.getMessagesBatch` (lines 87-92). -/
structure Batch where
  messages : List Message
  hasMore : Bool
  oldestTimestamp : Option Nat
  cachedAt : Nat
deriving DecidableEq, Repr

/-- A streaming-session record (`socketStateService.js`), reduced to
representative fields; partial updates may override any subset of them. -/
structure Session where
  room : String
  userId : String
  content : String
deriving DecidableEq, Repr

/-- A partial-fields update for a streaming session: `none` means the field
is absent from the update object and keeps its old value. -/
structure SessionUpdate where
  room : Option String
  userId : Option String
  content : Option String
deriving DecidableEq, Repr

/-- Shallow merge `{...session, ...updates}` from
`SocketStateService.updateStreamingSession` (line 77). -/
def mergeSession (s : Session) (u : SessionUpdate) : Session :=
  { room := u.room.getD s.room
    userId := u.userId.getD s.userId
    content := u.content.getD s.content }

/-- Room data cached by `CacheService.cacheRoomInfo`: an opaque payload and
an optional participants list (cached separately when present). -/
structure RoomData where
  payload : String
  participants : Option (List String)
deriving DecidableEq, Repr

/-- The closed set of value shapes this layer stores in the cache. -/
inductive CacheValue where
  | msg (m : Message)
  | msgList (l : List Message)
  | count (n : Nat)
  | batch (b : Batch)
  | session (s : Session)
  | roomInfo (r : RoomData)
  | strList (l : List String)
deriving DecidableEq, Repr

/-- A stored cache entry: the value together with the TTL (seconds) that the
write installed. -/
structure Entry where
  value : CacheValue
  ttl : Nat
deriving DecidableEq, Repr

/-- The key-value cache backend (Redis, or the in-memory fallback client):
an association list from keys to entries, most recent binding first. -/
abbrev Store := List (String × Entry)

/-- `SETEX key ttl value`: store `v` under `k` with TTL `ttl`, replacing any
previous binding for `k`. -/
def setEx (st : Store) (k : String) (v : CacheValue) (ttl : Nat) : Store :=
  (k, ⟨v, ttl⟩) :: st.filter (fun p => !(p.1 == k))

/-- `GET key`: the most recently stored value under `k`, if any. -/
def storeGet (st : Store) (k : String) : Option CacheValue :=
  (st.find? (fun p => p.1 == k)).map (fun p => p.2.value)

/-- The TTL recorded for key `k`, if the key is present. -/
def entryTtl (st : Store) (k : String) : Option Nat :=
  (st.find? (fun p => p.1 == k)).map (fun p => p.2.ttl)

/-- `DEL key`: remove every binding for `k`. -/
def storeDel (st : Store) (k : String) : Store :=
  st.filter (fun p => !(p.1 == k))

/-! ### Cache key construction (`messageRepository.js`, `cacheService.js`,
`socketStateService.js`) -/

def messageKey (id : String) : String := "message:" ++ id

def messagesKey (roomId : String) (page : Nat) : String :=
  "messages:" ++ roomId ++ ":" ++ toString page

def recentKey (roomId : String) : String := "recent:" ++ roomId

def msgCountKey (roomId : String) : String := "msg_count:" ++ roomId

def roomKey (roomId : String) : String := "room:" ++ roomId

def participantsKey (roomId : String) : String := "participants:" ++ roomId

def userRoomsKey (userId : String) : String := "user_rooms:" ++ userId

def streamingSessionKey (messageId : String) : String :=
  "socket:streaming_sessions:" ++ messageId

/-! ### TTL constants -/

/-! `MessageRepository.CACHE_TTL` (`messageRepository.js` lines 8-14). -/

namespace MessageRepository

def CACHE_TTL_MESSAGES : Nat := 3600

def CACHE_TTL_MESSAGE_BATCH : Nat := 1800

def CACHE_TTL_RECENT_MESSAGES : Nat := 600

def CACHE_TTL_MESSAGE_COUNT : Nat := 7200

end MessageRepository

/-! `CacheService.TTL` and `MAX_CACHED_MESSAGES` (`cacheService.js` lines 6-13). -/

namespace CacheService

def TTL_MESSAGES : Nat := 3600

def TTL_ROOM_INFO : Nat := 1800

def TTL_USER_ROOMS : Nat := 1800

def TTL_MESSAGE_BATCH : Nat := 600

def TTL_RECENT_MESSAGES : Nat := 300

def MAX_CACHED_MESSAGES : Nat := 50

end CacheService

/-! ### Write-through coordinator: `RedisShardingService.writeThrough`
(`redisShardingService.js` lines 80-101) -/

/-- The sharded cache: the primary (write-routed) target together with the
read replicas. -/
structure ShardedStore where
  primary : Store
  replicas : List Store
deriving Repr

def writeThroughErrorMsg : String := "[WriteThrough] Error"

/-- `writeThrough(key, data, ttl)`: store on the primary first (awaited; on
failure the error is rethrown and nothing else happens), then issue a write
to every read replica, each with its own error handler that only logs (a
failed replica keeps its old contents); the replica writes are not awaited
and the call returns `true` once the primary write has succeeded. `pOk` is
the outcome of the primary write, `rOk i` the outcome of the write to
replica `i`. -/
def writeThrough (pOk : Bool) (rOk : Nat → Bool) (s : ShardedStore)
    (k : String) (v : CacheValue) (ttl : Nat) : Except String Bool × ShardedStore :=
  if pOk then
    let primary := setEx s.primary k v ttl
    let replicas := s.replicas.mapIdx (fun i r => if rOk i then setEx r k v ttl else r)
    (Except.ok true, ⟨primary, replicas⟩)
  else
    (Except.error writeThroughErrorMsg, s)

/-! ### Message repository: `messageRepository.js` -/

/-- Step 2 of `saveMessage` (line 31): write-through the materialized message
under `message:{id}` with the message-object TTL. -/
def cacheMessageObject (st : Store) (m : Message) : Store :=
  setEx st (messageKey m.id) (CacheValue.msg m) MessageRepository.CACHE_TTL_MESSAGES

/-- The ring update inside `MessageRepository.addToRecentMessages`
(lines 150-158): push the new message, then, if the list now exceeds
`maxMessages`, keep only the last `maxMessages` entries (`slice(-maxMessages)`). -/
def addToRecentMessages (recentMessages : List Message) (message : Message)
    (maxMessages : Nat) : List Message :=
  let pushed := recentMessages ++ [message]
  if maxMessages < pushed.length then pushed.drop (pushed.length - maxMessages)
  else pushed

/-- `MessageRepository.addToRecentMessages` as a store operation
(lines 145-168): read the current ring under `recent:{roomId}` (missing or
non-list values start a fresh ring), apply the ring update with the default
cap 50, and store the result with the recent-messages TTL. -/
def addToRecentMessagesS (st : Store) (roomId : String) (m : Message) : Store :=
  let current := match storeGet st (recentKey roomId) with
    | some (CacheValue.msgList l) => l
    | _ => []
  setEx st (recentKey roomId) (CacheValue.msgList (addToRecentMessages current m 50))
    MessageRepository.CACHE_TTL_RECENT_MESSAGES

/-- `MessageRepository.incrementMessageCount` (lines 199-221): if a count is
cached, store the incremented count; otherwise store the count recomputed
from the document store (`dbCount`). Both writes use the message-count TTL. -/
def incrementMessageCountS (st : Store) (roomId : String) (dbCount : Nat) : Store :=
  match storeGet st (msgCountKey roomId) with
  | some (CacheValue.count c) =>
      setEx st (msgCountKey roomId) (CacheValue.count (c + 1))
        MessageRepository.CACHE_TTL_MESSAGE_COUNT
  | _ =>
      setEx st (msgCountKey roomId) (CacheValue.count dbCount)
        MessageRepository.CACHE_TTL_MESSAGE_COUNT

/-- `MessageRepository.invalidateMessageBatch` (lines 327-335): delete the
cached batch for one page of a room. -/
def invalidateMessageBatch (st : Store) (roomId : String) (page : Nat) : Store :=
  storeDel st (messagesKey roomId page)

def saveErrorMsg : String := "[MessageRepo] Save error"

/-- `MessageRepository.saveMessage` (lines 17-49). The MongoDB write comes
first (`dbOk` is its outcome); if it fails the error is rethrown and the
cache is untouched. On success: write-through the message object, append to
the room's recent ring, increment the cached count (recomputing from the
store count `dbCount` when no count is cached), and invalidate page 0 of the
room's batch cache. -/
def saveMessage (dbOk : Bool) (dbCount : Nat) (st : Store) (m : Message) :
    Except String Message × Store :=
  if dbOk then
    let st1 := cacheMessageObject st m
    let st2 := addToRecentMessagesS st1 m.room m
    let st3 := incrementMessageCountS st2 m.room dbCount
    let st4 := invalidateMessageBatch st3 m.room 0
    (Except.ok m, st4)
  else
    (Except.error saveErrorMsg, st)

/-- JavaScript truthiness of an optional number: `null`/`undefined` and the
number `0` are falsy, every other number is truthy. -/
def jsFalsyOptNat : Option Nat → Bool
  | none => true
  | some n => n == 0

/-- `MessageRepository.isValidCacheForBefore` (lines 373-382):
`if (!before || !cached.oldestTimestamp) return true` — both guards use
JavaScript truthiness, so an absent cursor, a `0` cursor, an absent
`oldestTimestamp` and a `0` `oldestTimestamp` all validate the cache —
otherwise the batch is valid iff `oldestTimestamp <= before`. -/
def isValidCacheForBefore (cached : Batch) (before : Option Nat) : Bool :=
  if jsFalsyOptNat before || jsFalsyOptNat cached.oldestTimestamp then true
  else decide (cached.oldestTimestamp.getD 0 ≤ before.getD 0)

/-- The documents matching the store query of `getMessagesBatch`
(lines 65-68): all messages of the room, restricted to
`timestamp < before` when a truthy `before` cursor is given (`if (before)`
uses JavaScript truthiness, so a `0` cursor adds no restriction). The `db`
argument is the room's messages in the document store. -/
def matchingMessages (db : List Message) (before : Option Nat) : List Message :=
  if jsFalsyOptNat before then db
  else db.filter (fun msg => decide (msg.timestamp < before.getD 0))

/-- The store's `.sort({ timestamp: -1 })`: descending by timestamp. -/
def sortDescByTimestamp (l : List Message) : List Message :=
  l.mergeSort (fun a b => decide (b.timestamp ≤ a.timestamp))

/-- The ascending re-sort of line 83:
`sort((a, b) => new Date(a.timestamp) - new Date(b.timestamp))`. -/
def sortAscByTimestamp (l : List Message) : List Message :=
  l.mergeSort (fun a b => decide (a.timestamp ≤ b.timestamp))

/-- The cache-miss path of `MessageRepository.getMessagesBatch`
(lines 64-92): fetch `limit + 1` matching rows in descending timestamp
order, set `hasMore` when more than `limit` rows came back, truncate to
`limit`, re-sort ascending, and build the batch record. The
`oldestTimestamp` field is `sortedMessages[0]?.timestamp || null`, which is
`null` both for an empty page and for a `0` first timestamp (truthiness). -/
def getMessagesBatchMiss (db : List Message) (limit : Nat) (before : Option Nat)
    (now : Nat) : Batch :=
  let fetched := (sortDescByTimestamp (matchingMessages db before)).take (limit + 1)
  let hasMore := decide (limit < fetched.length)
  let sortedMessages := sortAscByTimestamp (fetched.take limit)
  { messages := sortedMessages
    hasMore := hasMore
    oldestTimestamp := match sortedMessages.head? with
      | none => none
      | some m => if m.timestamp = 0 then none else some m.timestamp
    cachedAt := now }

/-- Step 4 of the miss path (line 95): cache the freshly built batch under
`messages:{roomId}:{page}` with the batch TTL. -/
def cacheMessagesBatchRepo (st : Store) (roomId : String) (page : Nat)
    (b : Batch) : Store :=
  setEx st (messagesKey roomId page) (CacheValue.batch b)
    MessageRepository.CACHE_TTL_MESSAGE_BATCH

/-- `MessageRepository.getMessagesBatch` (lines 52-104): read the cached
batch; on `cached && (!before || isValidCacheForBefore(cached, before))`
return it unchanged, otherwise rebuild from the document store and cache the
result. -/
def getMessagesBatch (db : List Message) (st : Store) (roomId : String)
    (page : Nat) (limit : Nat) (before : Option Nat) (now : Nat) : Batch × Store :=
  let result := getMessagesBatchMiss db limit before now
  match storeGet st (messagesKey roomId page) with
  | some (CacheValue.batch c) =>
      if jsFalsyOptNat before || isValidCacheForBefore c before then (c, st)
      else (result, cacheMessagesBatchRepo st roomId page result)
  | _ => (result, cacheMessagesBatchRepo st roomId page result)

/-! ### Cache service: `cacheService.js` -/

/-- `CacheService.cacheRecentMessages` (lines 96-103): store the list under
`recent:{roomId}` with the service's recent-messages TTL. -/
def cacheRecentMessages (st : Store) (roomId : String) (messages : List Message) :
    Store :=
  setEx st (recentKey roomId) (CacheValue.msgList messages)
    CacheService.TTL_RECENT_MESSAGES

/-- The ring update inside `CacheService.addMessageToCache` (lines 156-159):
push the new message, then, if the list exceeds `MAX_CACHED_MESSAGES` (50),
keep only the last `MAX_CACHED_MESSAGES` entries. -/
def addMessageToCacheRing (messages : List Message) (message : Message) :
    List Message :=
  let pushed := messages ++ [message]
  if CacheService.MAX_CACHED_MESSAGES < pushed.length then
    pushed.drop (pushed.length - CacheService.MAX_CACHED_MESSAGES)
  else pushed

/-- `CacheService.addMessageToCache` (lines 144-171): read the ring under
`recent:{roomId}` (anything that is not an array starts a fresh ring), apply
the capped append, store with the service's recent-messages TTL, and
invalidate page 0 of the room's batch cache. -/
def addMessageToCache (st : Store) (roomId : String) (message : Message) : Store :=
  let current := match storeGet st (recentKey roomId) with
    | some (CacheValue.msgList l) => l
    | _ => []
  let st1 := setEx st (recentKey roomId)
    (CacheValue.msgList (addMessageToCacheRing current message))
    CacheService.TTL_RECENT_MESSAGES
  storeDel st1 (messagesKey roomId 0)

/-- `CacheService.cacheRoomInfo` (lines 174-187): store the room data under
`room:{roomId}` with the room-info TTL, and, when a participants list is
present, store it under `participants:{roomId}` with the same TTL. -/
def cacheRoomInfo (st : Store) (roomId : String) (roomData : RoomData) : Store :=
  let st1 := setEx st (roomKey roomId) (CacheValue.roomInfo roomData)
    CacheService.TTL_ROOM_INFO
  match roomData.participants with
  | some ps => setEx st1 (participantsKey roomId) (CacheValue.strList ps)
      CacheService.TTL_ROOM_INFO
  | none => st1

/-- `CacheService.cacheUserRooms` (lines 238-245): store the room-id list
under `user_rooms:{userId}` with the user-rooms TTL. -/
def cacheUserRooms (st : Store) (userId : String) (roomIds : List String) : Store :=
  setEx st (userRoomsKey userId) (CacheValue.strList roomIds)
    CacheService.TTL_USER_ROOMS

/-- `CacheService.cacheMessageCount` (lines 259-266): store the count under
`msg_count:{roomId}` — with `this.TTL.ROOM_INFO` as the TTL. -/
def cacheMessageCount (st : Store) (roomId : String) (count : Nat) : Store :=
  setEx st (msgCountKey roomId) (CacheValue.count count) CacheService.TTL_ROOM_INFO

/-! ### Corrupted-entry handling on reads (`cacheService.js` lines 51-93 and
189-224)

The backing client (`utils/redisCluster.js`) stores serialized text and its
`get` first attempts `JSON.parse`, handing the caller the parsed object on
success and the raw string on failure; `CacheService` then screens raw
strings for the failed-stringification placeholder and retries the parse.
The raw store below holds the serialized text; `parse` stands for
`JSON.parse` restricted to the expected record shape. -/

abbrev RawStore := List (String × String)

def rawGet (st : RawStore) (k : String) : Option String :=
  (st.find? (fun p => p.1 == k)).map (fun p => p.2)

def rawDel (st : RawStore) (k : String) : RawStore :=
  st.filter (fun p => !(p.1 == k))

def objectObjectPlaceholder : String := "[object Object]"

def objectMarker : String := "[object "

/-- `CacheService.getCachedMessageBatch` (lines 51-93): a missing key is a
miss; a value the client could parse is returned as a hit; a raw string
equal to `"[object Object]"` or starting with `"[object "` is corrupted —
it is deleted and the read returns `null`; otherwise the service retries the
parse, returning the data on success and deleting the entry and returning
`null` on failure. -/
def getCachedMessageBatch (parse : String → Option Batch) (st : RawStore)
    (roomId : String) (page : Nat) : Option Batch × RawStore :=
  let key := messagesKey roomId page
  match rawGet st key with
  | none => (none, st)
  | some cached =>
    match parse cached with
    | some data => (some data, st)
    | none =>
      if cached == objectObjectPlaceholder || cached.startsWith objectMarker then
        (none, rawDel st key)
      else
        match parse cached with
        | some data => (some data, st)
        | none => (none, rawDel st key)

/-- `CacheService.getCachedRoomInfo` (lines 189-224): the same screening for
the `room:{roomId}` entry. -/
def getCachedRoomInfo (parse : String → Option RoomData) (st : RawStore)
    (roomId : String) : Option RoomData × RawStore :=
  let key := roomKey roomId
  match rawGet st key with
  | none => (none, st)
  | some cached =>
    match parse cached with
    | some data => (some data, st)
    | none =>
      if cached == objectObjectPlaceholder || cached.startsWith objectMarker then
        (none, rawDel st key)
      else
        match parse cached with
        | some data => (some data, st)
        | none => (none, rawDel st key)

/-! ### Socket state service: `socketStateService.js` -/

/-- `SocketStateService.SESSION_TTL` (line 15): two hours. -/
def SESSION_TTL : Nat := 2 * 60 * 60

/-- `SocketStateService.setStreamingSession` (lines 51-60): store the record
under `socket:streaming_sessions:{messageId}` with the session TTL. -/
def setStreamingSession (st : Store) (messageId : String) (s : Session) : Store :=
  setEx st (streamingSessionKey messageId) (CacheValue.session s) SESSION_TTL

/-- `SocketStateService.getStreamingSession` (lines 62-70): the stored
record, if any. -/
def getStreamingSession (st : Store) (messageId : String) : Option Session :=
  match storeGet st (streamingSessionKey messageId) with
  | some (CacheValue.session s) => some s
  | _ => none

/-- `SocketStateService.updateStreamingSession` (lines 72-83): load the
existing record; if there is none return `false` without writing; otherwise
shallow-merge the partial fields and rewrite the whole record. -/
def updateStreamingSession (st : Store) (messageId : String) (u : SessionUpdate) :
    Bool × Store :=
  match getStreamingSession st messageId with
  | none => (false, st)
  | some s => (true, setStreamingSession st messageId (mergeSession s u))

/-! ### Store lemmas -/

theorem find?_filter_key_self {α : Type} (st : List (String × α)) (k : String) :
    (st.filter (fun p => !(p.1 == k))).find? (fun p => p.1 == k) = none := by
  induction st with
  | nil => rfl
  | cons a l ih =>
    by_cases h : a.1 = k
    · simp [List.filter_cons, h, ih]
    · simp [List.filter_cons, h, List.find?_cons, ih]

theorem find?_filter_key_ne {α : Type} (st : List (String × α)) (k1 k2 : String)
    (h : k1 ≠ k2) :
    (st.filter (fun p => !(p.1 == k2))).find? (fun p => p.1 == k1)
      = st.find? (fun p => p.1 == k1) := by
  induction st with
  | nil => rfl
  | cons a l ih =>
    by_cases h2 : a.1 = k2
    · have hb2 : (a.1 == k2) = true := by simp [h2]
      have hb1 : (a.1 == k1) = false := by
        simp only [beq_eq_false_iff_ne]
        exact fun hk => h (hk.symm.trans h2)
      simp [List.filter_cons, hb2, List.find?_cons, hb1, ih]
    · have hb2 : (a.1 == k2) = false := by simp [h2]
      by_cases h1 : a.1 = k1
      · have hb1 : (a.1 == k1) = true := by simp [h1]
        simp [List.filter_cons, hb2, List.find?_cons, hb1]
      · have hb1 : (a.1 == k1) = false := by simp [h1]
        simp [List.filter_cons, hb2, List.find?_cons, hb1, ih]

theorem storeGet_setEx_self (st : Store) (k : String) (v : CacheValue) (t : Nat) :
    storeGet (setEx st k v t) k = some v := by
  simp [storeGet, setEx, List.find?_cons]

theorem entryTtl_setEx_self (st : Store) (k : String) (v : CacheValue) (t : Nat) :
    entryTtl (setEx st k v t) k = some t := by
  simp [entryTtl, setEx, List.find?_cons]

theorem entryTtl_setEx_ne (st : Store) (k1 k2 : String) (v : CacheValue) (t : Nat)
    (h : k1 ≠ k2) : entryTtl (setEx st k2 v t) k1 = entryTtl st k1 := by
  have hne : ¬ (k2 = k1) := fun hk => h hk.symm
  simp [entryTtl, setEx, List.find?_cons, hne, find?_filter_key_ne st k1 k2 h]

theorem rawGet_rawDel_self (st : RawStore) (k : String) :
    rawGet (rawDel st k) k = none := by
  simp [rawGet, rawDel, find?_filter_key_self]

theorem roomKey_ne_participantsKey (r : String) : roomKey r ≠ participantsKey r := by
  intro h
  have h2 := congrArg String.length h
  rw [roomKey, participantsKey, String.length_append, String.length_append] at h2
  have e1 : ("room:" : String).length = 5 := rfl
  have e2 : ("participants:" : String).length = 13 := rfl
  rw [e1, e2] at h2
  omega

/-! ### Ring-buffer lemmas -/

theorem addToRecentMessages_eq_drop (r : List Message) (m : Message) :
    addToRecentMessages r m 50 = (r ++ [m]).drop ((r.length + 1) - 50) := by
  unfold addToRecentMessages
  simp only [List.length_append, List.length_cons, List.length_nil, Nat.zero_add]
  by_cases h : 50 < r.length + 1
  · simp [h]
  · simp only [h, if_false]
    rw [Nat.sub_eq_zero_of_le (by omega), List.drop_zero]

theorem foldRecent_eq_drop (msgs : List Message) :
    ∀ init : List Message, init.length ≤ 50 →
      msgs.foldl (fun r m => addToRecentMessages r m 50) init
        = (init ++ msgs).drop ((init.length + msgs.length) - 50) := by
  induction msgs with
  | nil =>
    intro init h
    simp only [List.foldl_nil, List.append_nil, List.length_nil, Nat.add_zero]
    rw [Nat.sub_eq_zero_of_le h, List.drop_zero]
  | cons m ms ih =>
    intro init h
    have hk : init.length + 1 - 50 ≤ (init ++ [m]).length := by
      simp only [List.length_append, List.length_cons, List.length_nil]
      omega
    have hlen : ((init ++ [m]).drop (init.length + 1 - 50)).length
        = init.length + 1 - (init.length + 1 - 50) := by
      simp [List.length_drop]
    rw [List.foldl_cons, addToRecentMessages_eq_drop,
      ih _ (by rw [hlen]; omega)]
    rw [← List.drop_append_of_le_length hk, List.drop_drop, hlen]
    rw [List.append_assoc, List.singleton_append]
    have harith : init.length + 1 - 50
          + (init.length + 1 - (init.length + 1 - 50) + ms.length - 50)
        = init.length + (m :: ms).length - 50 := by
      simp only [List.length_cons]
      omega
    rw [harith]

theorem utf8_flatMap_ascii (roomId : List Nat) (h : ∀ c ∈ roomId, c < 128) :
    roomId.flatMap utf8EncodeChar = roomId := by
  induction roomId with
  | nil => rfl
  | cons c cs ih =>
    have hc : c < 128 := h c (by simp)
    have htail := ih (fun x hx => h x (by simp [hx]))
    simp [utf8EncodeChar, hc, htail]

/-! ### Claim C1 -/

/-- C1, counterexample: `getShardKey` is not the CRC-32 of the UTF-8 bytes of
the identifier for every identifier. For the one-character identifier with
code point `U+0080` (UTF-16 code unit `128`, UTF-8 bytes `[0xC2, 0x80]`) the
code hashes the single byte `128` and lands on a different shard than the
CRC over the UTF-8 bytes. -/
theorem getShardKey_utf8_cex : getShardKey [128] ≠ shardForSpec [128] := by decide

/-- C1, amended: `getShardKey(roomId)` is the standard CRC-32 (polynomial
`0xEDB88320`, init and final xor `0xFFFFFFFF`) of the low bytes of the
UTF-16 code units of the identifier, reduced modulo 3 — which agrees with
the CRC over the UTF-8 bytes whenever the identifier is pure ASCII — and the
result is always below 3; repeated calls return the same index because
`getShardKey` is a pure function of the identifier. -/
theorem getShardKey_ascii_spec (roomId : List Nat) (h : ∀ c ∈ roomId, c < 128) :
    getShardKey roomId = shardForSpec roomId ∧ getShardKey roomId < 3 := by
  constructor
  · rw [shardForSpec, utf8_flatMap_ascii roomId h, getShardKey]
  · exact Nat.mod_lt _ (by decide)

/-- C1, witness: the amended theorem evaluated on the ASCII identifier
`"room1"` (code units `[114, 111, 111, 109, 49]`). -/
theorem getShardKey_ascii_spec_witness :
    getShardKey [114, 111, 111, 109, 49] = shardForSpec [114, 111, 111, 109, 49] ∧
    getShardKey [114, 111, 111, 109, 49] < 3 :=
  getShardKey_ascii_spec [114, 111, 111, 109, 49] (by decide)

/-! ### Claim C2 -/

/-- C2: when the MongoDB write inside `saveMessage` fails, the call reports
the error and no cache mutation occurs — the message-object cache, the
recent-messages ring, the cached message count and the page-0 batch cache
of the room all read exactly as before (indeed the whole cache store is
unchanged). -/
theorem saveMessage_fail_leaves_cache (dbCount : Nat) (st : Store) (m : Message) :
    (saveMessage false dbCount st m).1.isOk = false ∧
    (saveMessage false dbCount st m).2 = st ∧
    storeGet (saveMessage false dbCount st m).2 (messageKey m.id)
      = storeGet st (messageKey m.id) ∧
    storeGet (saveMessage false dbCount st m).2 (recentKey m.room)
      = storeGet st (recentKey m.room) ∧
    storeGet (saveMessage false dbCount st m).2 (msgCountKey m.room)
      = storeGet st (msgCountKey m.room) ∧
    storeGet (saveMessage false dbCount st m).2 (messagesKey m.room 0)
      = storeGet st (messagesKey m.room 0) :=
  ⟨rfl, rfl, rfl, rfl, rfl, rfl⟩

/-! ### Claim C3 -/

/-- C3: `writeThrough` succeeds exactly when the primary write succeeds: it
returns `true` whenever the primary write completes, with the same outcome
under any pattern of replica-write failures (replica failures are absorbed
by their per-promise handlers, never raised), it throws exactly when the
primary write itself fails (leaving the whole sharded store untouched), and
on success the value is stored on the primary. -/
theorem writeThrough_primary_decides (pOk : Bool) (rOk rOk2 : Nat → Bool)
    (s : ShardedStore) (k : String) (v : CacheValue) (ttl : Nat) :
    ((writeThrough pOk rOk s k v ttl).1.isOk = pOk) ∧
    ((writeThrough true rOk s k v ttl).1 = Except.ok true) ∧
    (writeThrough false rOk s k v ttl = (Except.error writeThroughErrorMsg, s)) ∧
    ((writeThrough true rOk s k v ttl).1 = (writeThrough true rOk2 s k v ttl).1) ∧
    storeGet (writeThrough true rOk s k v ttl).2.primary k = some v := by
  refine ⟨?hall, rfl, rfl, rfl, ?hp⟩
  · cases pOk <;> rfl
  · exact storeGet_setEx_self s.primary k v ttl

/-! ### Claim C4 -/

def roomA : String := "roomA"

/-- A cached batch whose `oldestTimestamp` is `1`. -/
def cexBatch : Batch :=
  { messages := [], hasMore := false, oldestTimestamp := some 1, cachedAt := 0 }

def cexStore : Store := [(messagesKey roomA 0, ⟨CacheValue.batch cexBatch, 1800⟩)]

/-- C4, counterexample: the claim fails for the non-null cursor `before = 0`.
With a cached batch whose `oldestTimestamp` is `1` and `before = 0`, the
claim demands a miss (since `1 ≤ 0` is false), but `getMessagesBatch`
returns the cached batch unchanged (a hit): the guard `!before` in
`isValidCacheForBefore` and in `getMessagesBatch` treats the number `0` as
falsy, so a zero cursor short-circuits the freshness check. -/
theorem getMessagesBatch_before_zero_cex :
    getMessagesBatch [] cexStore roomA 0 30 (some 0) 0 = (cexBatch, cexStore) ∧
    ¬ (1 ≤ (0 : Nat)) := by decide

/-- C4, amended: for every cached batch with non-null `oldestTimestamp = T`
and every non-null, nonzero cursor `before = b`, `getMessagesBatch` treats
the cached batch as a hit (returning it with the store unchanged) exactly
when `T ≤ b`; when `b < T` it treats the cache as stale, reloads the batch
from the document store and caches the reloaded batch. A zero cursor is
treated like an absent cursor (always a hit). -/
theorem getMessagesBatch_before_freshness (db : List Message) (st : Store)
    (roomId : String) (page limit now : Nat) (c : Batch) (T b : Nat)
    (hc : storeGet st (messagesKey roomId page) = some (CacheValue.batch c))
    (hT : c.oldestTimestamp = some T) (hb : b ≠ 0) :
    (T ≤ b → getMessagesBatch db st roomId page limit (some b) now = (c, st)) ∧
    (b < T → getMessagesBatch db st roomId page limit (some b) now =
      (getMessagesBatchMiss db limit (some b) now,
       cacheMessagesBatchRepo st roomId page
         (getMessagesBatchMiss db limit (some b) now))) := by
  have hfb : jsFalsyOptNat (some b) = false := by
    simp [jsFalsyOptNat, hb]
  constructor
  · intro hle
    have hvalid : isValidCacheForBefore c (some b) = true := by
      by_cases hT0 : T = 0
      · simp [isValidCacheForBefore, hT, hT0, jsFalsyOptNat]
      · simp [isValidCacheForBefore, hT, hT0, jsFalsyOptNat, hb, hle]
    simp [getMessagesBatch, hc, hfb, hvalid]
  · intro hlt
    have hT0 : T ≠ 0 := by omega
    have hvalid : isValidCacheForBefore c (some b) = false := by
      simp [isValidCacheForBefore, hT, hT0, jsFalsyOptNat, hb]
      omega
    simp [getMessagesBatch, hc, hfb, hvalid]

/-- A cached batch whose `oldestTimestamp` is `5`. -/
def freshBatch : Batch :=
  { messages := [], hasMore := false, oldestTimestamp := some 5, cachedAt := 0 }

def freshStore : Store := [(messagesKey roomA 0, ⟨CacheValue.batch freshBatch, 1800⟩)]

/-- C4, witness: the amended theorem evaluated with `T = 5` and `b = 10` —
the cached batch is accepted and returned unchanged. -/
theorem getMessagesBatch_before_freshness_witness :
    getMessagesBatch [] freshStore roomA 0 30 (some 10) 0 = (freshBatch, freshStore) :=
  (getMessagesBatch_before_freshness [] freshStore roomA 0 30 0 freshBatch 5 10
    (by decide) (by decide) (by decide)).1 (by decide)

/-! ### Claim C10 -/

/-- C10: a cached batch whose `oldestTimestamp` is null passes the freshness
check for every non-null cursor — `isValidCacheForBefore` returns `true`,
and `getMessagesBatch` returns the cached batch with the store unchanged —
so an empty cached page is never invalidated by the freshness check. -/
theorem emptyBatch_always_fresh (c : Batch) (b : Nat)
    (h : c.oldestTimestamp = none) :
    isValidCacheForBefore c (some b) = true ∧
    ∀ (db : List Message) (st : Store) (roomId : String) (page limit now : Nat),
      storeGet st (messagesKey roomId page) = some (CacheValue.batch c) →
      getMessagesBatch db st roomId page limit (some b) now = (c, st) := by
  have hvalid : isValidCacheForBefore c (some b) = true := by
    simp [isValidCacheForBefore, h, jsFalsyOptNat]
  refine ⟨hvalid, ?hrun⟩
  intro db st roomId page limit now hc
  simp [getMessagesBatch, hc, hvalid]

/-- A cached batch with null `oldestTimestamp`, as produced by caching an
empty query result. -/
def emptyBatch : Batch :=
  { messages := [], hasMore := false, oldestTimestamp := none, cachedAt := 0 }

def emptyBatchStore : Store :=
  [(messagesKey roomA 0, ⟨CacheValue.batch emptyBatch, 1800⟩)]

/-- C10, witness: the theorem evaluated on an empty cached batch and the
cursor `7`. -/
theorem emptyBatch_always_fresh_witness :
    isValidCacheForBefore emptyBatch (some 7) = true ∧
    getMessagesBatch [] emptyBatchStore roomA 0 30 (some 7) 0
      = (emptyBatch, emptyBatchStore) :=
  ⟨(emptyBatch_always_fresh emptyBatch 7 rfl).1,
   (emptyBatch_always_fresh emptyBatch 7 rfl).2 [] emptyBatchStore roomA 0 30 0
     (by decide)⟩

/-! ### Claim C5 -/

theorem matchingMessages_none (db : List Message) : matchingMessages db none = db := by
  simp [matchingMessages, jsFalsyOptNat]

theorem getMessagesBatchMiss_hasMore (db : List Message) (limit : Nat)
    (before : Option Nat) (now : Nat) :
    ((getMessagesBatchMiss db limit before now).hasMore = true ↔
      limit < (matchingMessages db before).length) := by
  dsimp only [getMessagesBatchMiss]
  rw [decide_eq_true_iff]
  simp only [List.length_take, sortDescByTimestamp, List.length_mergeSort]
  omega

theorem getMessagesBatchMiss_length (db : List Message) (limit : Nat)
    (before : Option Nat) (now : Nat) :
    (getMessagesBatchMiss db limit before now).messages.length
      = min limit (matchingMessages db before).length := by
  dsimp only [getMessagesBatchMiss]
  simp only [sortAscByTimestamp, sortDescByTimestamp, List.length_mergeSort,
    List.length_take]
  omega

theorem getMessagesBatchMiss_sorted (db : List Message) (limit : Nat)
    (before : Option Nat) (now : Nat) :
    (getMessagesBatchMiss db limit before now).messages.Pairwise
      (fun a b => a.timestamp ≤ b.timestamp) := by
  dsimp only [getMessagesBatchMiss, sortAscByTimestamp]
  refine List.Pairwise.imp ?mono
    (List.sorted_mergeSort ?htrans ?htotal
      (((sortDescByTimestamp (matchingMessages db before)).take (limit + 1)).take limit))
  case mono => intro a b hab; exact of_decide_eq_true hab
  case htrans => intro a b c hab hbc; simp only [decide_eq_true_eq] at *; omega
  case htotal => intro a b; simpa using Nat.le_total a.timestamp b.timestamp

theorem getMessagesBatchMiss_perm (db : List Message) (limit : Nat)
    (before : Option Nat) (now : Nat) :
    (getMessagesBatchMiss db limit before now).messages.Perm
      ((sortDescByTimestamp (matchingMessages db before)).take limit) := by
  dsimp only [getMessagesBatchMiss, sortAscByTimestamp]
  rw [List.take_take, Nat.min_eq_left (Nat.le_succ limit)]
  exact List.mergeSort_perm _ _

/-- C5: on a cache miss `getMessagesBatch` fetches `limit + 1` matching rows
in descending timestamp order; it reports `hasMore = true` exactly when more
than `limit` messages match, returns `min limit count` messages — the
`limit` most recent ones (a permutation of the head of the descending
order), re-sorted ascending by timestamp — and in particular with
`limit = 30` and no cursor it reports `hasMore = false` exactly when fewer
than 31 messages exist and returns exactly 30 messages when 31 or more
exist. -/
theorem getMessagesBatchMiss_spec (db : List Message) (limit : Nat)
    (before : Option Nat) (now : Nat) :
    ((getMessagesBatchMiss db limit before now).hasMore = true ↔
      limit < (matchingMessages db before).length) ∧
    (getMessagesBatchMiss db limit before now).messages.length
      = min limit (matchingMessages db before).length ∧
    (getMessagesBatchMiss db limit before now).messages.Pairwise
      (fun a b => a.timestamp ≤ b.timestamp) ∧
    (getMessagesBatchMiss db limit before now).messages.Perm
      ((sortDescByTimestamp (matchingMessages db before)).take limit) ∧
    ((getMessagesBatchMiss db 30 none now).hasMore = false ↔ db.length < 31) ∧
    (getMessagesBatchMiss db 30 none now).messages.length = min 30 db.length := by
  refine ⟨getMessagesBatchMiss_hasMore db limit before now,
    getMessagesBatchMiss_length db limit before now,
    getMessagesBatchMiss_sorted db limit before now,
    getMessagesBatchMiss_perm db limit before now, ?hm30, ?hl30⟩
  · have h := getMessagesBatchMiss_hasMore db 30 none now
    rw [matchingMessages_none] at h
    rw [Bool.eq_false_iff, Ne, h]
    omega
  · have h := getMessagesBatchMiss_length db 30 none now
    rwa [matchingMessages_none] at h

/-! ### Claim C6 -/

theorem ringFold_eq_drop (msgs : List Message) :
    msgs.foldl (fun r m => addToRecentMessages r m 50) []
      = msgs.drop (msgs.length - 50) := by
  have h := foldRecent_eq_drop msgs [] (by simp)
  simpa using h

theorem cacheRingFold_eq_drop (msgs : List Message) :
    msgs.foldl (fun r m => addMessageToCacheRing r m) []
      = msgs.drop (msgs.length - 50) := by
  have heq : (fun r m => addMessageToCacheRing r m)
      = (fun r m => addToRecentMessages r m 50) := rfl
  rw [heq, ringFold_eq_drop]

/-- C6: appending any sequence of messages one at a time to an initially
empty recent-messages ring — through the repository's
`addToRecentMessages` with its cap of 50, or through the cache service's
capped append with `MAX_CACHED_MESSAGES = 50` — leaves exactly the suffix
of the last 50 appended messages in arrival order; in particular the ring
never holds more than 50 messages. -/
theorem recent_ring_cap (msgs : List Message) :
    msgs.foldl (fun r m => addToRecentMessages r m 50) []
      = msgs.drop (msgs.length - 50) ∧
    (msgs.foldl (fun r m => addToRecentMessages r m 50) []).length ≤ 50 ∧
    msgs.foldl (fun r m => addMessageToCacheRing r m) []
      = msgs.drop (msgs.length - 50) ∧
    (msgs.foldl (fun r m => addMessageToCacheRing r m) []).length ≤ 50 := by
  refine ⟨ringFold_eq_drop msgs, ?hlen1, cacheRingFold_eq_drop msgs, ?hlen2⟩
  · rw [ringFold_eq_drop msgs, List.length_drop]
    omega
  · rw [cacheRingFold_eq_drop msgs, List.length_drop]
    omega

/-! ### Claim C7 -/

/-- C7: a cache read of a key holding a value that cannot be parsed as
serialized data — which includes the failed-stringification placeholder
`"[object Object]"` and every string beginning with `"[object "`, since
those are not valid serialized records — returns `null` instead of
propagating a parse error, and deletes the corrupted entry so the key is
absent afterward; this holds for message-batch reads and room-info reads
alike. -/
theorem corrupted_cache_reads_delete (parseB : String → Option Batch)
    (parseR : String → Option RoomData) (stM stR : RawStore) (roomId : String)
    (page : Nat) (s t : String)
    (hM : rawGet stM (messagesKey roomId page) = some s) (hMbad : parseB s = none)
    (hR : rawGet stR (roomKey roomId) = some t) (hRbad : parseR t = none) :
    (getCachedMessageBatch parseB stM roomId page).1 = none ∧
    rawGet (getCachedMessageBatch parseB stM roomId page).2 (messagesKey roomId page)
      = none ∧
    (getCachedRoomInfo parseR stR roomId).1 = none ∧
    rawGet (getCachedRoomInfo parseR stR roomId).2 (roomKey roomId) = none := by
  have hdelM := rawGet_rawDel_self stM (messagesKey roomId page)
  have hdelR := rawGet_rawDel_self stR (roomKey roomId)
  cases hifM : (s == objectObjectPlaceholder || s.startsWith objectMarker) <;>
    cases hifR : (t == objectObjectPlaceholder || t.startsWith objectMarker) <;>
      exact ⟨by simp [getCachedMessageBatch, hM, hMbad, hifM],
        by simp [getCachedMessageBatch, hM, hMbad, hifM, hdelM],
        by simp [getCachedRoomInfo, hR, hRbad, hifR],
        by simp [getCachedRoomInfo, hR, hRbad, hifR, hdelR]⟩

def corruptStoreM : RawStore := [(messagesKey roomA 0, objectObjectPlaceholder)]

def garbageVal : String := "not json"

def corruptStoreR : RawStore := [(roomKey roomA, garbageVal)]

/-- C7, witness: a message-batch key holding the literal placeholder
`"[object Object]"` and a room-info key holding unparseable text both read
back as `null` and are absent afterwards (`parse` is `JSON.parse`
restricted to the record shape, which fails on both values). -/
theorem corrupted_cache_reads_delete_witness :
    (getCachedMessageBatch (fun _ => none) corruptStoreM roomA 0).1 = none ∧
    rawGet (getCachedMessageBatch (fun _ => none) corruptStoreM roomA 0).2
      (messagesKey roomA 0) = none ∧
    (getCachedRoomInfo (fun _ => none) corruptStoreR roomA).1 = none ∧
    rawGet (getCachedRoomInfo (fun _ => none) corruptStoreR roomA).2
      (roomKey roomA) = none :=
  corrupted_cache_reads_delete (fun _ => none) (fun _ => none) corruptStoreM
    corruptStoreR roomA 0 objectObjectPlaceholder garbageVal (by decide) rfl
    (by decide) rfl

/-! ### Claim C8 -/

/-- C8, counterexample: `CacheService.cacheMessageCount` writes the cached
message count with `TTL.ROOM_INFO = 1800` seconds, not the 7200 seconds the
spec's TTL table assigns to the message-count class. -/
theorem cacheMessageCount_ttl_cex :
    entryTtl (cacheMessageCount [] roomA 5) (msgCountKey roomA) = some 1800 ∧
    (1800 : Nat) ≠ 7200 := by decide

/-- C8, amended: the message repository's writes use the spec's TTL table —
message object 3600, message batch 1800, recent-messages ring 600, message
count 7200 — and the cache service writes room info and user-room mappings
with 1800 as specified; but the cache service writes the recent-messages
ring with 300 (not 600), the message count with the room-info TTL 1800 (not
7200), and its message-batch TTL constant is 600 (not 1800). -/
theorem ttl_classes (st : Store) (roomId userId : String) (m : Message)
    (msgs : List Message) (rooms : List String) (rd : RoomData) (b : Batch)
    (page n dbCount : Nat) :
    entryTtl (cacheMessageObject st m) (messageKey m.id) = some 3600 ∧
    entryTtl (cacheMessagesBatchRepo st roomId page b) (messagesKey roomId page)
      = some 1800 ∧
    entryTtl (addToRecentMessagesS st roomId m) (recentKey roomId) = some 600 ∧
    entryTtl (incrementMessageCountS st roomId dbCount) (msgCountKey roomId)
      = some 7200 ∧
    entryTtl (cacheRoomInfo st roomId rd) (roomKey roomId) = some 1800 ∧
    entryTtl (cacheUserRooms st userId rooms) (userRoomsKey userId) = some 1800 ∧
    entryTtl (cacheRecentMessages st roomId msgs) (recentKey roomId) = some 300 ∧
    entryTtl (cacheMessageCount st roomId n) (msgCountKey roomId) = some 1800 ∧
    CacheService.TTL_MESSAGE_BATCH = 600 := by
  refine ⟨entryTtl_setEx_self _ _ _ _, entryTtl_setEx_self _ _ _ _,
    entryTtl_setEx_self _ _ _ _, ?hinc, ?hroom, entryTtl_setEx_self _ _ _ _,
    entryTtl_setEx_self _ _ _ _, entryTtl_setEx_self _ _ _ _, rfl⟩
  · unfold incrementMessageCountS
    cases storeGet st (msgCountKey roomId) with
    | none => exact entryTtl_setEx_self _ _ _ _
    | some v =>
      cases v <;> exact entryTtl_setEx_self _ _ _ _
  · unfold cacheRoomInfo
    cases rd.participants with
    | none => exact entryTtl_setEx_self _ _ _ _
    | some ps =>
      rw [entryTtl_setEx_ne _ _ _ _ _ (roomKey_ne_participantsKey roomId)]
      exact entryTtl_setEx_self _ _ _ _

/-! ### Claim C9 -/

/-- C9: `updateStreamingSession` returns `false` and performs no write when
no streaming-session record exists for the id; when a record exists it
returns `true` and rewrites the whole record as the shallow merge of the
partial fields into the existing record, which a subsequent read returns. -/
theorem updateStreamingSession_spec (st : Store) (messageId : String)
    (u : SessionUpdate) :
    (getStreamingSession st messageId = none →
      (updateStreamingSession st messageId u).1 = false ∧
      (updateStreamingSession st messageId u).2 = st) ∧
    (∀ s : Session, getStreamingSession st messageId = some s →
      (updateStreamingSession st messageId u).1 = true ∧
      getStreamingSession (updateStreamingSession st messageId u).2 messageId
        = some (mergeSession s u)) := by
  constructor
  · intro h
    simp [updateStreamingSession, h]
  · intro s h
    refine ⟨by simp [updateStreamingSession, h], ?hread⟩
    simp only [updateStreamingSession, h]
    simp [getStreamingSession, setStreamingSession, storeGet_setEx_self]

def userA : String := "userA"

def helloContent : String := "hello"

def msgA : String := "m1"

def sampleSession : Session :=
  { room := roomA, userId := userA, content := helloContent }

def noFieldsUpdate : SessionUpdate :=
  { room := none, userId := none, content := none }

def sessionStore : Store :=
  [(streamingSessionKey msgA, ⟨CacheValue.session sampleSession, 7200⟩)]

/-- C9, witness: on an empty store the update returns `false` and writes
nothing; on a store holding one session the update returns `true` and the
merged record reads back. -/
theorem updateStreamingSession_spec_witness :
    ((updateStreamingSession [] msgA noFieldsUpdate).1 = false ∧
     (updateStreamingSession [] msgA noFieldsUpdate).2 = []) ∧
    ((updateStreamingSession sessionStore msgA noFieldsUpdate).1 = true ∧
     getStreamingSession (updateStreamingSession sessionStore msgA noFieldsUpdate).2
       msgA = some (mergeSession sampleSession noFieldsUpdate)) :=
  ⟨(updateStreamingSession_spec [] msgA noFieldsUpdate).1 rfl,
   (updateStreamingSession_spec sessionStore msgA noFieldsUpdate).2 sampleSession
     (by decide)⟩

end Chat
